import Mathlib

/-!
Verification development for the data-access layer of the Inventory-demo
repository (`src/lib/db.ts`).

The development shallowly embeds:

* the query facade `db.all` / `db.get` / `db.run` and the transaction
  coordinator `db.transaction` together with the scoped facade `txDb`
  (db.ts lines 163-226), over a model of the external libsql/SQLite
  engine (one connection, at most one open transaction, `BEGIN` /
  `COMMIT` / `ROLLBACK` directives, "no transaction is active" errors) —
  the engine itself is a third-party capability, modelled here with its
  documented SQLite semantics;
* the lazy singleton initialization of `getInitializedClient` /
  `initializeDatabase` (db.ts lines 15-150) as an interleaving system of
  concurrent callers sharing one initialization promise;
* the seed statements of `initializeDatabase` (db.ts lines 93-126) with
  the engine's `INSERT OR IGNORE` semantics over the `users` and
  `products` tables.
-/

/-- A thrown JavaScript value: either an `Error` instance carrying a
message (`instanceof Error` holds) or some other thrown value. -/
inductive JsErr where
  | errObj (msg : String)
  | raw (tag : String)
deriving DecidableEq

/-- A bound SQL parameter value, mirroring the `SqlParams` element type of
db.ts line 9: `null | string | number | Uint8Array | bigint | boolean`. -/
inductive Value where
  | vnull
  | vstr (s : String)
  | vnum (q : Rat)
  | vblob (bytes : List Nat)
  | vbig (i : Int)
  | vbool (b : Bool)
deriving DecidableEq

/-- A result row: named columns with engine-native values (spec section 6). -/
abbrev Row : Type := List (String × Value)

/-- A statement as delivered to the engine by `client.execute({ sql, args })`:
the SQL text together with the positional argument list. -/
structure Request where
  sql : String
  args : List Value
deriving DecidableEq

/-- Whether the character list `pat` occurs as a contiguous run inside `l`. -/
def charsHasSub (pat : List Char) : List Char → Bool
  | [] => pat.isEmpty
  | c :: t => pat.isPrefixOf (c :: t) || charsHasSub pat t

/-- JavaScript `s.includes(pat)`: substring containment on strings. -/
def strIncludes (s pat : String) : Bool :=
  charsHasSub pat.toList s.toList

/-- The commit-failure test of db.ts line 210: benign exactly when the
thrown value is an `Error` whose message includes
"no transaction is active". -/
def benignCommit : JsErr → Bool
  | .errObj msg => strIncludes msg "no transaction is active"
  | .raw _ => false

/-- State of the external SQL engine on the single connection: the durable
(committed) store, and, when a transaction is open, the transaction's
working store. `txOpen = none` means autocommit mode. -/
structure EngineState (σ : Type) where
  committed : σ
  txOpen : Option σ
deriving DecidableEq

/-- The connection as the layer sees it: engine state plus the trace of
every request delivered to the engine, in order. -/
structure Conn (σ : Type) where
  engine : EngineState σ
  trace : List Request
deriving DecidableEq

section DbLayer

variable {σ : Type}
variable (interp : String → List Value → σ → Except JsErr (σ × List Row))
variable (cc : σ → Option JsErr)

/-- One step of the external engine on a delivered request, with SQLite
transaction semantics. `interp` interprets a data statement over a store;
`cc` is the engine's commit-time check (e.g. a deferred constraint),
letting `COMMIT` fail for reasons other than "no transaction is active".
A data statement executes against the open transaction's working store
when one is open, and autocommits otherwise; a failing statement leaves
the engine state unchanged. -/
def engineExec (req : Request) (e : EngineState σ) :
    EngineState σ × Except JsErr (List Row) :=
  if req.sql = "BEGIN" then
    match e.txOpen with
    | some _ => (e, .error (.errObj "cannot start a transaction within a transaction"))
    | none => (⟨e.committed, some e.committed⟩, .ok [])
  else if req.sql = "COMMIT" then
    match e.txOpen with
    | some s =>
      match cc s with
      | some err => (e, .error err)
      | none => (⟨s, none⟩, .ok [])
    | none => (e, .error (.errObj "cannot commit - no transaction is active"))
  else if req.sql = "ROLLBACK" then
    match e.txOpen with
    | some _ => (⟨e.committed, none⟩, .ok [])
    | none => (e, .error (.errObj "cannot rollback - no transaction is active"))
  else
    match e.txOpen with
    | some s =>
      match interp req.sql req.args s with
      | .ok (s', rows) => (⟨e.committed, some s'⟩, .ok rows)
      | .error err => (e, .error err)
    | none =>
      match interp req.sql req.args e.committed with
      | .ok (s', rows) => (⟨s', none⟩, .ok rows)
      | .error err => (e, .error err)

/-- `client.execute(req)`: the request is delivered to the engine (recorded
on the trace) and the engine's answer is returned. -/
def clientExecute (req : Request) (c : Conn σ) :
    Conn σ × Except JsErr (List Row) :=
  let (e', r) := engineExec interp cc req c.engine
  (⟨e', c.trace ++ [req]⟩, r)

/-- Facade `db.all` (db.ts lines 164-168), after initialization: executes
`{ sql, args: params }` and returns the rows. -/
def db.all (sql : String) (params : List Value) (c : Conn σ) :
    Conn σ × Except JsErr (List Row) :=
  clientExecute interp cc ⟨sql, params⟩ c

/-- Facade `db.get` (db.ts lines 170-174): executes `{ sql, args: params }`
and returns `rows[0] ?? null` — the first row, or the absent marker. -/
def db.get (sql : String) (params : List Value) (c : Conn σ) :
    Conn σ × Except JsErr (Option Row) :=
  match clientExecute interp cc ⟨sql, params⟩ c with
  | (c', .ok rows) => (c', .ok rows.head?)
  | (c', .error e) => (c', .error e)

/-- Facade `db.run` (db.ts lines 176-179): executes `{ sql, args: params }`
and discards the result set. -/
def db.run (sql : String) (params : List Value) (c : Conn σ) :
    Conn σ × Except JsErr Unit :=
  match clientExecute interp cc ⟨sql, params⟩ c with
  | (c', .ok _) => (c', .ok ())
  | (c', .error e) => (c', .error e)

/-- Scoped facade `txDb.all` (db.ts lines 188-191): same delivery on the
shared client, inside the open transaction. -/
def txDb.all (sql : String) (params : List Value) (c : Conn σ) :
    Conn σ × Except JsErr (List Row) :=
  clientExecute interp cc ⟨sql, params⟩ c

/-- Scoped facade `txDb.get` (db.ts lines 192-195). -/
def txDb.get (sql : String) (params : List Value) (c : Conn σ) :
    Conn σ × Except JsErr (Option Row) :=
  match clientExecute interp cc ⟨sql, params⟩ c with
  | (c', .ok rows) => (c', .ok rows.head?)
  | (c', .error e) => (c', .error e)

/-- Scoped facade `txDb.run` (db.ts lines 196-198). -/
def txDb.run (sql : String) (params : List Value) (c : Conn σ) :
    Conn σ × Except JsErr Unit :=
  match clientExecute interp cc ⟨sql, params⟩ c with
  | (c', .ok _) => (c', .ok ())
  | (c', .error e) => (c', .error e)

end DbLayer

/-- A transaction body: the program a caller passes to `db.transaction`,
written against the scoped facade. Continuations receive the awaited
results; `throwE` throws; `nestedTx` calls the scoped facade's
`transaction` member and awaits it; `tryCatch` lets a body catch errors. -/
inductive Body where
  | pure (v : Value)
  | throwE (e : JsErr)
  | allQ (sql : String) (args : List Value) (k : List Row → Body)
  | getQ (sql : String) (args : List Value) (k : Option Row → Body)
  | runQ (sql : String) (args : List Value) (k : Body)
  | nestedTx (inner : Body) (k : Value → Body)
  | tryCatch (attempt : Body) (handler : JsErr → Body)

section DbLayer2

variable {σ : Type}
variable (interp : String → List Value → σ → Except JsErr (σ × List Row))
variable (cc : σ → Option JsErr)

/-- Scoped facade `txDb.transaction` (db.ts lines 199-201): rejects with
the nested-transaction error without invoking the callback and without
delivering anything to the engine. -/
def txDb.transaction (_cb : Body) (c : Conn σ) :
    Conn σ × Except JsErr Value :=
  (c, .error (.errObj "Nested transactions not supported"))

/-- Runs a transaction body against the scoped facade: each operation's
rejection propagates out of the body unless a surrounding `tryCatch`
handles it. -/
def runBody : Body → Conn σ → Conn σ × Except JsErr Value
  | .pure v, c => (c, .ok v)
  | .throwE e, c => (c, .error e)
  | .allQ s p k, c =>
    match txDb.all interp cc s p c with
    | (c', .ok rows) => runBody (k rows) c'
    | (c', .error e) => (c', .error e)
  | .getQ s p k, c =>
    match txDb.get interp cc s p c with
    | (c', .ok row?) => runBody (k row?) c'
    | (c', .error e) => (c', .error e)
  | .runQ s p k, c =>
    match txDb.run interp cc s p c with
    | (c', .ok _) => runBody k c'
    | (c', .error e) => (c', .error e)
  | .nestedTx inner k, c =>
    match txDb.transaction inner c with
    | (c', .ok v) => runBody (k v) c'
    | (c', .error e) => (c', .error e)
  | .tryCatch a h, c =>
    match runBody a c with
    | (c', .ok v) => (c', .ok v)
    | (c', .error e) => runBody (h e) c'

/-- Transaction coordinator `db.transaction` (db.ts lines 181-225):
`BEGIN` (outside the try), run the body against the scoped facade, then
`COMMIT` on success — a commit failure is swallowed when `benignCommit`
holds and otherwise rethrown into the outer catch — and on any error
caught by the outer catch, attempt `ROLLBACK` with its own failure
ignored, then rethrow the caught error. -/
def db.transaction (b : Body) (c : Conn σ) : Conn σ × Except JsErr Value :=
  match clientExecute interp cc ⟨"BEGIN", []⟩ c with
  | (c1, .error e) => (c1, .error e)
  | (c1, .ok _) =>
    match runBody interp cc b c1 with
    | (c2, .ok v) =>
      (match clientExecute interp cc ⟨"COMMIT", []⟩ c2 with
       | (c3, .ok _) => (c3, .ok v)
       | (c3, .error ce) =>
         if benignCommit ce then (c3, .ok v)
         else ((clientExecute interp cc ⟨"ROLLBACK", []⟩ c3).1, .error ce))
    | (c2, .error e) =>
      ((clientExecute interp cc ⟨"ROLLBACK", []⟩ c2).1, .error e)

end DbLayer2

/-!
Concrete demonstration engine used for witnesses and counterexamples: a
key-value data store with an insert statement, a lookup statement, and a
failing statement.
-/

/-- Store of the demonstration engine: a list of key-value rows. -/
abbrev DemoStore : Type := List (String × String)

/-- Demonstration data-statement interpreter: `"INS" [k, v]` appends a
row, `"SEL" [k]` returns the rows whose key is `k`, anything else is a
statement error. -/
def demoInterp : String → List Value → DemoStore →
    Except JsErr (DemoStore × List Row)
  | "INS", [Value.vstr k, Value.vstr v], st => .ok (st ++ [(k, v)], [])
  | "SEL", [Value.vstr k], st =>
    .ok (st, (st.filter (fun kv => kv.1 == k)).map
      (fun kv => [("value", Value.vstr kv.2)]))
  | _, _, _ => .error (.errObj "SQL logic error: unrecognized statement")

/-- Demonstration commit-time check that never objects. -/
def noCommitCheck : DemoStore → Option JsErr := fun _ => none

/-- Demonstration commit-time check that always rejects the commit with a
non-benign engine error (e.g. a deferred foreign-key violation). -/
def fkCommitCheck : DemoStore → Option JsErr :=
  fun _ => some (.errObj "FOREIGN KEY constraint failed")

/-- A fresh demonstration connection: empty committed store, no open
transaction, empty trace. -/
def demoConn : Conn DemoStore := ⟨⟨[], none⟩, []⟩

/-!
Initialization model: `getInitializedClient` (db.ts lines 135-150) with
its module-level `libsqlClient` and `initializationPromise` (lines 15-16),
and `initializeDatabase` (lines 18-129) as a background task that the
first caller spawns. Concurrent callers interleave cooperatively: code
between two awaits runs atomically (JavaScript run-to-completion), so the
null-check and assignment of `initializationPromise` at lines 136-141
form one atomic step, and invoking the async `initializeDatabase` runs
its body synchronously up to the first await — past the early-return
guard of line 19 and the `libsqlClient` assignment of line 38.
-/

/-- Outcome that the in-flight `initializeDatabase` call will resolve its
promise with: success, or rejection with an error (rethrown unchanged by
the `.catch` handler of db.ts lines 137-140). -/
inductive InitOutcome where
  | ok
  | fail (e : JsErr)
deriving DecidableEq

/-- Decidable equality for `Except` results. -/
instance {ε α : Type} [DecidableEq ε] [DecidableEq α] :
    DecidableEq (Except ε α) := fun a b =>
  match a, b with
  | .ok x, .ok y =>
    if h : x = y then .isTrue (by rw [h])
    else .isFalse (fun hc => h (Except.ok.inj hc))
  | .error x, .error y =>
    if h : x = y then .isTrue (by rw [h])
    else .isFalse (fun hc => h (Except.error.inj hc))
  | .ok _, .error _ => .isFalse (fun hc => by cases hc)
  | .error _, .ok _ => .isFalse (fun hc => by cases hc)

/-- Where one caller of `getInitializedClient` stands: about to run the
synchronous prefix (lines 136-141), suspended awaiting the promise with
identity `pid` (line 143), or returned / thrown (lines 145-149). -/
inductive CallerState where
  | entry
  | awaitingTok (pid : Nat)
  | finished (r : Except JsErr Unit)
deriving DecidableEq

/-- The module-level state of db.ts plus the bookkeeping of the one
background initialization task. Promise identities are allocated from
`nextPromiseId`; `resolutions` records settled promises; `initStarts`
counts invocations of `initializeDatabase`; `cfgSteps` and `cfgOut` say
how many awaits the initialization body performs before settling and
with which outcome. -/
structure InitWorld where
  initializationPromise : Option Nat
  libsqlClient : Option Unit
  nextPromiseId : Nat
  initStarts : Nat
  task : Option (Nat × Nat × InitOutcome)
  resolutions : List (Nat × InitOutcome)
  cfgSteps : Nat
  cfgOut : InitOutcome
deriving DecidableEq

/-- Looks up the settled outcome of promise `pid`. -/
def lookupRes : List (Nat × InitOutcome) → Nat → Option InitOutcome
  | [], _ => none
  | (q, out) :: t, pid => if q = pid then some out else lookupRes t pid

/-- The whole interleaving system: shared module state plus each
concurrent caller's position. -/
structure Sys where
  w : InitWorld
  callers : List CallerState
deriving DecidableEq

/-- One scheduler step of a single caller of `getInitializedClient`.
At `entry` the caller runs the synchronous prefix atomically: when no
promise is recorded it invokes `initializeDatabase` (which runs to its
first await: early-return guard, then the `libsqlClient` assignment),
records the new promise in `initializationPromise`, and only then
suspends on it; otherwise it suspends on the recorded promise. A caller
suspended on a settled promise resumes: on rejection the await rethrows
the error, on success it re-checks `libsqlClient` (line 145) and returns
the client. -/
def stepCallerState (w : InitWorld) : CallerState → InitWorld × CallerState
  | .entry =>
    match w.initializationPromise with
    | none =>
      let pid := w.nextPromiseId
      if w.libsqlClient.isSome then
        ({ w with initializationPromise := some pid, nextPromiseId := pid + 1,
                  initStarts := w.initStarts + 1,
                  task := some (pid, 0, .ok) }, .awaitingTok pid)
      else
        ({ w with initializationPromise := some pid, nextPromiseId := pid + 1,
                  initStarts := w.initStarts + 1, libsqlClient := some (),
                  task := some (pid, w.cfgSteps, w.cfgOut) }, .awaitingTok pid)
    | some pid => (w, .awaitingTok pid)
  | .awaitingTok pid =>
    match lookupRes w.resolutions pid with
    | none => (w, .awaitingTok pid)
    | some .ok =>
      if w.libsqlClient.isSome then (w, .finished (.ok ()))
      else (w, .finished (.error (.errObj "Database client not initialized")))
    | some (.fail e) => (w, .finished (.error e))
  | .finished r => (w, .finished r)

/-- One scheduler step of the in-flight `initializeDatabase` body: it
performs its next awaited statement, and after its last one settles its
promise. -/
def stepTask (w : InitWorld) : InitWorld :=
  match w.task with
  | none => w
  | some (pid, Nat.succ n, out) => { w with task := some (pid, n, out) }
  | some (pid, 0, out) =>
    { w with task := none, resolutions := w.resolutions ++ [(pid, out)] }

/-- A scheduling choice: run caller `i`, or run the initialization task. -/
inductive Label where
  | caller (i : Nat)
  | task
deriving DecidableEq

/-- One step of the whole system under a scheduling choice. Steps of
absent callers, of blocked callers, and of the absent task are no-ops. -/
def stepSys : Label → Sys → Sys
  | .task, s => ⟨stepTask s.w, s.callers⟩
  | .caller i, s =>
    match s.callers[i]? with
    | none => s
    | some cs =>
      let p := stepCallerState s.w cs
      ⟨p.1, s.callers.set i p.2⟩

/-- Runs the system under a schedule, an arbitrary finite interleaving. -/
def runSched (sched : List Label) (s : Sys) : Sys :=
  sched.foldl (fun s l => stepSys l s) s

/-- The system at process start: fresh module state, `n` first-time
callers none of which has run yet. -/
def initSys (n steps : Nat) (out : InitOutcome) : Sys :=
  ⟨{ initializationPromise := none, libsqlClient := none, nextPromiseId := 0,
     initStarts := 0, task := none, resolutions := [],
     cfgSteps := steps, cfgOut := out },
   List.replicate n .entry⟩

/-!
Seed model: the `INSERT OR IGNORE` seed statements of `initializeDatabase`
(db.ts lines 93-126) over the `users` and `products` tables, with the
engine's conflict semantics keyed on the tables' unique columns
(`users.id` primary key, `users.email` unique; `products.id` primary key,
`products.sku` unique).
-/

/-- A row of the `users` table (db.ts lines 43-51). -/
structure UserRow where
  id : String
  email : String
  password : String
  name : String
  role : String
deriving DecidableEq

/-- A row of the `products` table (db.ts lines 53-64). -/
structure ProductRow where
  id : String
  name : String
  sku : String
  quantity : Int
  reorderLevel : Int
  price : Rat
  cost : Rat
  category : String
deriving DecidableEq

/-- The two seeded tables. -/
structure SeedStore where
  users : List UserRow
  products : List ProductRow
deriving DecidableEq

/-- Whether inserting `u` into `users` hits a uniqueness conflict
(primary key `id` or unique `email`). -/
def userConflicts (u : UserRow) (t : List UserRow) : Bool :=
  t.any (fun v => v.id == u.id || v.email == u.email)

/-- `INSERT OR IGNORE INTO users`: on conflict the statement is a no-op,
otherwise the row is appended. -/
def insertOrIgnoreUser (u : UserRow) (t : List UserRow) : List UserRow :=
  if userConflicts u t then t else t ++ [u]

/-- Whether inserting `p` into `products` hits a uniqueness conflict
(primary key `id` or unique `sku`). -/
def productConflicts (p : ProductRow) (t : List ProductRow) : Bool :=
  t.any (fun v => v.id == p.id || v.sku == p.sku)

/-- `INSERT OR IGNORE INTO products`. -/
def insertOrIgnoreProduct (p : ProductRow) (t : List ProductRow) :
    List ProductRow :=
  if productConflicts p t then t else t ++ [p]

/-- The seeded administrative account (db.ts line 101), parameterized by
the bcrypt hash computed for that run. -/
def adminSeedRow (adminHashed : String) : UserRow :=
  ⟨"admin1", "admin@inventory.com", adminHashed, "Admin User", "admin"⟩

/-- Seed product `prod1` (db.ts line 109). -/
def prod1Row : ProductRow :=
  ⟨"prod1", "Sample Product 1", "SKU001", 100, 10, 50, 30, "Electronics"⟩

/-- Seed product `prod2` (db.ts line 117). -/
def prod2Row : ProductRow :=
  ⟨"prod2", "Sample Product 2", "SKU002", 200, 20, 25, 15, "Clothing"⟩

/-- Seed product `prod3` (db.ts line 125). -/
def prod3Row : ProductRow :=
  ⟨"prod3", "Sample Product 3", "SKU003", 150, 15, 75, 45, "Home Goods"⟩

/-- The seed portion of `initializeDatabase` (db.ts lines 93-126): the
four `INSERT OR IGNORE` statements in source order, with `adminHashed`
the hash computed for this run. -/
def seedDatabase (adminHashed : String) (st : SeedStore) : SeedStore :=
  ⟨insertOrIgnoreUser (adminSeedRow adminHashed) st.users,
   insertOrIgnoreProduct prod3Row
     (insertOrIgnoreProduct prod2Row
       (insertOrIgnoreProduct prod1Row st.products))⟩

/-!
Remaining definitions: the class of bodies that issue no transaction
control through the scoped facade, concrete bodies used as witnesses and
counterexamples, and the inductive invariant of the initialization
system.
-/

/-- Bodies every one of whose statements is a data statement: none of the
SQL texts handed to the scoped facade is the transaction-control verb
`BEGIN`, `COMMIT` or `ROLLBACK`. -/
inductive NoTxCtrl : Body → Prop where
  | pure (v : Value) : NoTxCtrl (.pure v)
  | throwE (e : JsErr) : NoTxCtrl (.throwE e)
  | allQ (s : String) (p : List Value) (k : List Row → Body) :
      s ≠ "BEGIN" → s ≠ "COMMIT" → s ≠ "ROLLBACK" →
      (∀ rows, NoTxCtrl (k rows)) → NoTxCtrl (.allQ s p k)
  | getQ (s : String) (p : List Value) (k : Option Row → Body) :
      s ≠ "BEGIN" → s ≠ "COMMIT" → s ≠ "ROLLBACK" →
      (∀ row?, NoTxCtrl (k row?)) → NoTxCtrl (.getQ s p k)
  | runQ (s : String) (p : List Value) (k : Body) :
      s ≠ "BEGIN" → s ≠ "COMMIT" → s ≠ "ROLLBACK" →
      NoTxCtrl k → NoTxCtrl (.runQ s p k)
  | nestedTx (inner : Body) (k : Value → Body) : NoTxCtrl (.nestedTx inner k)
  | tryCatch (a : Body) (h : JsErr → Body) :
      NoTxCtrl a → (∀ e, NoTxCtrl (h e)) → NoTxCtrl (.tryCatch a h)

/-- Witness body for the rollback property: insert a row, then throw. -/
def bodyInsertThenThrow : Body :=
  .runQ "INS" [.vstr "k", .vstr "v"] (.throwE (.raw "boom"))

/-- Counterexample body: commits the open transaction through the scoped
facade, inserts a row (now durable, autocommitted), then throws. -/
def bodyCommitInsertThrow : Body :=
  .runQ "COMMIT" [] (.runQ "INS" [.vstr "k", .vstr "v"] (.throwE (.raw "boom")))

/-- Witness body for rollback-failure suppression: resolves the open
transaction itself, then throws, so the cleanup rollback must fail. -/
def bodyRollbackThenThrow : Body :=
  .runQ "ROLLBACK" [] (.throwE (.raw "boom"))

/-- Witness body invoking the scoped facade's `transaction` member after a
data statement, letting the nested-transaction error propagate. -/
def bodyInsertThenNested : Body :=
  .runQ "INS" [.vstr "k", .vstr "v"] (.nestedTx (.pure .vnull) (fun v => .pure v))

/-- Counterexample body: commits through the scoped facade, inserts a row
durably, then trips the nested-transaction rejection. -/
def bodyCommitInsertNested : Body :=
  .runQ "COMMIT" []
    (.runQ "INS" [.vstr "k", .vstr "v"] (.nestedTx (.pure .vnull) (fun v => .pure v)))

/-- Inductive invariant of the initialization system, for a configured
outcome `out`: at most one initialization ever starts, the only promise
identity is 0, callers past `entry` observe that promise, the task and
every resolution carry the configured outcome, and finished callers hold
the result that outcome dictates. -/
structure Good (out : InitOutcome) (s : Sys) : Prop where
  cfg : s.w.cfgOut = out
  startsLe : s.w.initStarts ≤ 1
  promNone : s.w.initializationPromise = none →
    s.w.initStarts = 0 ∧ s.w.libsqlClient = none ∧ s.w.nextPromiseId = 0 ∧
    s.w.task = none ∧ s.w.resolutions = [] ∧
    ∀ (i : Nat) (cs : CallerState), s.callers[i]? = some cs → cs = CallerState.entry
  promSome : ∀ pid, s.w.initializationPromise = some pid →
    pid = 0 ∧ s.w.initStarts = 1 ∧ s.w.libsqlClient = some ()
  nonEntry : ∀ (i : Nat) (cs : CallerState), s.callers[i]? = some cs →
    cs ≠ CallerState.entry → s.w.initializationPromise = some 0
  awaitPid : ∀ (i pid : Nat),
    s.callers[i]? = some (CallerState.awaitingTok pid) → pid = 0
  taskInv : ∀ pid m o, s.w.task = some (pid, m, o) → pid = 0 ∧ o = out
  resInv : ∀ pid o, (pid, o) ∈ s.w.resolutions → pid = 0 ∧ o = out
  finInv : ∀ (i : Nat) (r : Except JsErr Unit),
    s.callers[i]? = some (CallerState.finished r) →
    (out = InitOutcome.ok → r = Except.ok ()) ∧
    ∀ e, out = InitOutcome.fail e → r = Except.error e

/-!
Helper lemmas about the engine and the facade operations.
-/

theorem clientExecute_trace {σ : Type}
    (interp : String → List Value → σ → Except JsErr (σ × List Row))
    (cc : σ → Option JsErr) (req : Request) (c : Conn σ) :
    (clientExecute interp cc req c).1.trace = c.trace ++ [req] := by
  rcases h : engineExec interp cc req c.engine with ⟨e', r⟩
  simp [clientExecute, h]

theorem clientExecute_engine {σ : Type}
    (interp : String → List Value → σ → Except JsErr (σ × List Row))
    (cc : σ → Option JsErr) (req : Request) (c : Conn σ) :
    (clientExecute interp cc req c).1.engine = (engineExec interp cc req c.engine).1
    ∧ (clientExecute interp cc req c).2 = (engineExec interp cc req c.engine).2 := by
  rcases h : engineExec interp cc req c.engine with ⟨e', r⟩
  simp [clientExecute, h]

theorem dbGet_fst {σ : Type}
    (interp : String → List Value → σ → Except JsErr (σ × List Row))
    (cc : σ → Option JsErr) (s : String) (p : List Value) (c : Conn σ) :
    (db.get interp cc s p c).1 = (clientExecute interp cc ⟨s, p⟩ c).1 := by
  unfold db.get
  rcases h : clientExecute interp cc ⟨s, p⟩ c with ⟨c', r⟩
  cases r <;> simp

theorem dbRun_fst {σ : Type}
    (interp : String → List Value → σ → Except JsErr (σ × List Row))
    (cc : σ → Option JsErr) (s : String) (p : List Value) (c : Conn σ) :
    (db.run interp cc s p c).1 = (clientExecute interp cc ⟨s, p⟩ c).1 := by
  unfold db.run
  rcases h : clientExecute interp cc ⟨s, p⟩ c with ⟨c', r⟩
  cases r <;> simp

theorem txGet_fst {σ : Type}
    (interp : String → List Value → σ → Except JsErr (σ × List Row))
    (cc : σ → Option JsErr) (s : String) (p : List Value) (c : Conn σ) :
    (txDb.get interp cc s p c).1 = (clientExecute interp cc ⟨s, p⟩ c).1 := by
  unfold txDb.get
  rcases h : clientExecute interp cc ⟨s, p⟩ c with ⟨c', r⟩
  cases r <;> simp

theorem txRun_fst {σ : Type}
    (interp : String → List Value → σ → Except JsErr (σ × List Row))
    (cc : σ → Option JsErr) (s : String) (p : List Value) (c : Conn σ) :
    (txDb.run interp cc s p c).1 = (clientExecute interp cc ⟨s, p⟩ c).1 := by
  unfold txDb.run
  rcases h : clientExecute interp cc ⟨s, p⟩ c with ⟨c', r⟩
  cases r <;> simp

theorem clientExecute_begin_none {σ : Type}
    (interp : String → List Value → σ → Except JsErr (σ × List Row))
    (cc : σ → Option JsErr) (c : Conn σ) (h : c.engine.txOpen = none) :
    clientExecute interp cc ⟨"BEGIN", []⟩ c
      = (⟨⟨c.engine.committed, some c.engine.committed⟩,
          c.trace ++ [⟨"BEGIN", []⟩]⟩, .ok []) := by
  simp [clientExecute, engineExec, h]

theorem clientExecute_rollback_some {σ : Type}
    (interp : String → List Value → σ → Except JsErr (σ × List Row))
    (cc : σ → Option JsErr) (c : Conn σ) (s : σ) (h : c.engine.txOpen = some s) :
    clientExecute interp cc ⟨"ROLLBACK", []⟩ c
      = (⟨⟨c.engine.committed, none⟩, c.trace ++ [⟨"ROLLBACK", []⟩]⟩, .ok []) := by
  simp [clientExecute, engineExec, h]

theorem clientExecute_rollback_none {σ : Type}
    (interp : String → List Value → σ → Except JsErr (σ × List Row))
    (cc : σ → Option JsErr) (c : Conn σ) (h : c.engine.txOpen = none) :
    clientExecute interp cc ⟨"ROLLBACK", []⟩ c
      = (⟨c.engine, c.trace ++ [⟨"ROLLBACK", []⟩]⟩,
         .error (.errObj "cannot rollback - no transaction is active")) := by
  simp [clientExecute, engineExec, h]

theorem clientExecute_data_pres {σ : Type}
    (interp : String → List Value → σ → Except JsErr (σ × List Row))
    (cc : σ → Option JsErr) (req : Request) (c : Conn σ)
    (h1 : req.sql ≠ "BEGIN") (h2 : req.sql ≠ "COMMIT") (h3 : req.sql ≠ "ROLLBACK")
    (s : σ) (ht : c.engine.txOpen = some s) :
    (clientExecute interp cc req c).1.engine.committed = c.engine.committed
    ∧ ((clientExecute interp cc req c).1.engine.txOpen).isSome := by
  have he := (clientExecute_engine interp cc req c).1
  rw [he]
  simp only [engineExec, if_neg h1, if_neg h2, if_neg h3, ht]
  rcases hi : interp req.sql req.args s with e | pr
  · simp [ht]
  · rcases pr with ⟨s', rows⟩
    simp

theorem runBody_preserves {σ : Type}
    (interp : String → List Value → σ → Except JsErr (σ × List Row))
    (cc : σ → Option JsErr) {b : Body} (hb : NoTxCtrl b) :
    ∀ c : Conn σ, (c.engine.txOpen).isSome →
      (runBody interp cc b c).1.engine.committed = c.engine.committed
      ∧ ((runBody interp cc b c).1.engine.txOpen).isSome := by
  induction hb with
  | pure v => intro c hc; simp [runBody, hc]
  | throwE e => intro c hc; simp [runBody, hc]
  | allQ s p k h1 h2 h3 hk ih =>
    intro c hc
    obtain ⟨st, hst⟩ := Option.isSome_iff_exists.mp hc
    have hpres := clientExecute_data_pres interp cc ⟨s, p⟩ c h1 h2 h3 st hst
    rcases hq : clientExecute interp cc ⟨s, p⟩ c with ⟨c', r⟩
    rw [hq] at hpres
    cases r with
    | ok rows =>
      have := ih rows c' hpres.2
      simp only [runBody, txDb.all, hq]
      exact ⟨this.1.trans hpres.1, this.2⟩
    | error e =>
      simp only [runBody, txDb.all, hq]
      exact hpres
  | getQ s p k h1 h2 h3 hk ih =>
    intro c hc
    obtain ⟨st, hst⟩ := Option.isSome_iff_exists.mp hc
    have hpres := clientExecute_data_pres interp cc ⟨s, p⟩ c h1 h2 h3 st hst
    rcases hq : clientExecute interp cc ⟨s, p⟩ c with ⟨c', r⟩
    rw [hq] at hpres
    cases r with
    | ok rows =>
      have := ih rows.head? c' hpres.2
      simp only [runBody, txDb.get, hq]
      exact ⟨this.1.trans hpres.1, this.2⟩
    | error e =>
      simp only [runBody, txDb.get, hq]
      exact hpres
  | runQ s p k h1 h2 h3 hk ih =>
    intro c hc
    obtain ⟨st, hst⟩ := Option.isSome_iff_exists.mp hc
    have hpres := clientExecute_data_pres interp cc ⟨s, p⟩ c h1 h2 h3 st hst
    rcases hq : clientExecute interp cc ⟨s, p⟩ c with ⟨c', r⟩
    rw [hq] at hpres
    cases r with
    | ok rows =>
      have := ih c' hpres.2
      simp only [runBody, txDb.run, hq]
      exact ⟨this.1.trans hpres.1, this.2⟩
    | error e =>
      simp only [runBody, txDb.run, hq]
      exact hpres
  | nestedTx inner k =>
    intro c hc
    simp [runBody, txDb.transaction, hc]
  | tryCatch a h ha hh iha ihh =>
    intro c hc
    rcases hq : runBody interp cc a c with ⟨c', r⟩
    have hfst := iha c hc
    rw [hq] at hfst
    cases r with
    | ok v => simp only [runBody, hq]; exact hfst
    | error e =>
      have := ihh e c' hfst.2
      simp only [runBody, hq]
      exact ⟨this.1.trans hfst.1, this.2⟩

theorem transaction_error_path {σ : Type}
    (interp : String → List Value → σ → Except JsErr (σ × List Row))
    (cc : σ → Option JsErr) (b : Body) (c : Conn σ) (e : JsErr)
    (h0 : c.engine.txOpen = none)
    (hb : (runBody interp cc b
            ((clientExecute interp cc ⟨"BEGIN", []⟩ c).1)).2 = .error e) :
    db.transaction interp cc b c
      = ((clientExecute interp cc ⟨"ROLLBACK", []⟩
           (runBody interp cc b
             ((clientExecute interp cc ⟨"BEGIN", []⟩ c).1)).1).1, .error e) := by
  have hbeg := clientExecute_begin_none interp cc c h0
  rw [hbeg] at hb
  dsimp only at hb
  unfold db.transaction
  rw [hbeg]
  dsimp only
  rcases hr : runBody interp cc b
      ⟨⟨c.engine.committed, some c.engine.committed⟩,
        c.trace ++ [⟨"BEGIN", []⟩]⟩ with ⟨c2, r⟩
  rw [hr] at hb
  dsimp only at hb
  rw [hr, hb]

theorem transaction_ok_path {σ : Type}
    (interp : String → List Value → σ → Except JsErr (σ × List Row))
    (cc : σ → Option JsErr) (b : Body) (c : Conn σ) (v : Value)
    (h0 : c.engine.txOpen = none)
    (hb : (runBody interp cc b
            ((clientExecute interp cc ⟨"BEGIN", []⟩ c).1)).2 = .ok v) :
    db.transaction interp cc b c
      = (match clientExecute interp cc ⟨"COMMIT", []⟩
           (runBody interp cc b
             ((clientExecute interp cc ⟨"BEGIN", []⟩ c).1)).1 with
         | (c3, .ok _) => (c3, .ok v)
         | (c3, .error ce) =>
           if benignCommit ce then (c3, .ok v)
           else ((clientExecute interp cc ⟨"ROLLBACK", []⟩ c3).1, .error ce)) := by
  have hbeg := clientExecute_begin_none interp cc c h0
  rw [hbeg] at hb
  dsimp only at hb
  unfold db.transaction
  rw [hbeg]
  dsimp only
  rcases hr : runBody interp cc b
      ⟨⟨c.engine.committed, some c.engine.committed⟩,
        c.trace ++ [⟨"BEGIN", []⟩]⟩ with ⟨c2, r⟩
  rw [hr] at hb
  dsimp only at hb
  rw [hr, hb]

/-- C3: calling `transaction` on the scoped facade passed to a running
transaction body fails fast with the "Nested transactions not supported"
error before anything else happens: the nested callback is never invoked
(the outcome is the same for every nested body), no request reaches the
engine, and the connection is unchanged. -/
theorem nested_tx_fails_fast {σ : Type}
    (interp : String → List Value → σ → Except JsErr (σ × List Row))
    (cc : σ → Option JsErr) (inner inner' : Body) (k : Value → Body) (c : Conn σ) :
    txDb.transaction inner c
      = ((c : Conn σ), .error (.errObj "Nested transactions not supported"))
    ∧ runBody interp cc (.nestedTx inner k) c
        = (c, .error (.errObj "Nested transactions not supported"))
    ∧ runBody interp cc (.nestedTx inner k) c
        = runBody interp cc (.nestedTx inner' k) c
    ∧ (runBody interp cc (.nestedTx inner k) c).1.trace = c.trace :=
  ⟨rfl, rfl, rfl, rfl⟩

/-- C6: for every SQL text and parameter list, `db.get` resolves with the
absent marker (`none`) when the execution returns zero rows, resolves with
the first row otherwise, and rejects only when the execution itself
rejects, propagating that error unchanged. -/
theorem get_zero_rows_absent {σ : Type}
    (interp : String → List Value → σ → Except JsErr (σ × List Row))
    (cc : σ → Option JsErr) (s : String) (p : List Value) (c : Conn σ) :
    ((clientExecute interp cc ⟨s, p⟩ c).2 = .ok []
      → (db.get interp cc s p c).2 = .ok none)
    ∧ (∀ rows, (clientExecute interp cc ⟨s, p⟩ c).2 = .ok rows
      → (db.get interp cc s p c).2 = .ok rows.head?)
    ∧ (∀ e, (clientExecute interp cc ⟨s, p⟩ c).2 = .error e
      → (db.get interp cc s p c).2 = .error e) := by
  rcases hq : clientExecute interp cc ⟨s, p⟩ c with ⟨c', r⟩
  unfold db.get
  rw [hq]
  dsimp only
  refine ⟨?_, ?_, ?_⟩
  · intro h; subst h; rfl
  · intro rows h; subst h; rfl
  · intro e h; subst h; rfl

/-- Witness for C6 at a concrete input: a lookup matching zero rows on the
demonstration engine resolves with the absent marker. -/
theorem get_zero_rows_absent_witness :
    (db.get demoInterp noCommitCheck "SEL" [Value.vstr "missing"] demoConn).2
      = .ok none :=
  (get_zero_rows_absent demoInterp noCommitCheck "SEL" [Value.vstr "missing"]
    demoConn).1 rfl

/-- C9: every facade operation, top-level or transaction-scoped, delivers
to the engine exactly one statement carrying exactly the caller's SQL text
with the caller's parameter list bound positionally alongside it, and the
SQL texts delivered are independent of the parameter values. -/
theorem params_positional_bound {σ : Type}
    (interp : String → List Value → σ → Except JsErr (σ × List Row))
    (cc : σ → Option JsErr) (s : String) (p p' : List Value) (c : Conn σ) :
    (db.all interp cc s p c).1.trace = c.trace ++ [⟨s, p⟩]
    ∧ (db.get interp cc s p c).1.trace = c.trace ++ [⟨s, p⟩]
    ∧ (db.run interp cc s p c).1.trace = c.trace ++ [⟨s, p⟩]
    ∧ (txDb.all interp cc s p c).1.trace = c.trace ++ [⟨s, p⟩]
    ∧ (txDb.get interp cc s p c).1.trace = c.trace ++ [⟨s, p⟩]
    ∧ (txDb.run interp cc s p c).1.trace = c.trace ++ [⟨s, p⟩]
    ∧ (db.all interp cc s p c).1.trace.map Request.sql
        = (db.all interp cc s p' c).1.trace.map Request.sql := by
  refine ⟨?_, ?_, ?_, ?_, ?_, ?_, ?_⟩
  · exact clientExecute_trace interp cc ⟨s, p⟩ c
  · rw [dbGet_fst]; exact clientExecute_trace interp cc ⟨s, p⟩ c
  · rw [dbRun_fst]; exact clientExecute_trace interp cc ⟨s, p⟩ c
  · exact clientExecute_trace interp cc ⟨s, p⟩ c
  · rw [txGet_fst]; exact clientExecute_trace interp cc ⟨s, p⟩ c
  · rw [txRun_fst]; exact clientExecute_trace interp cc ⟨s, p⟩ c
  · show (clientExecute interp cc ⟨s, p⟩ c).1.trace.map Request.sql
        = (clientExecute interp cc ⟨s, p'⟩ c).1.trace.map Request.sql
    rw [clientExecute_trace, clientExecute_trace]
    simp

theorem db.get_data_autocommit {σ : Type}
    (interp : String → List Value → σ → Except JsErr (σ × List Row))
    (cc : σ → Option JsErr) (s : String) (p : List Value) (c : Conn σ)
    (h1 : s ≠ "BEGIN") (h2 : s ≠ "COMMIT") (h3 : s ≠ "ROLLBACK")
    (h0 : c.engine.txOpen = none) (st' : σ) (rows : List Row)
    (hi : interp s p c.engine.committed = .ok (st', rows)) :
    (db.get interp cc s p c).2 = .ok rows.head? := by
  unfold db.get
  have hq : clientExecute interp cc ⟨s, p⟩ c
      = (⟨⟨st', none⟩, c.trace ++ [⟨s, p⟩]⟩, .ok rows) := by
    simp [clientExecute, engineExec, h1, h2, h3, h0, hi]
  rw [hq]

/-- C2 (amended): for every body that rejects, `db.transaction` attempts a
rollback right after the body and rejects with the body's original error;
when the body issued no transaction-control statement (`BEGIN`, `COMMIT`
or `ROLLBACK`) through the scoped facade, the store is left unchanged —
the committed store equals the original one, no transaction stays open,
and a lookup that matched zero rows before the transaction still resolves
with the absent marker afterwards. -/
theorem tx_body_error_rolls_back {σ : Type}
    (interp : String → List Value → σ → Except JsErr (σ × List Row))
    (cc : σ → Option JsErr) (b : Body) (c : Conn σ) (e : JsErr)
    (h0 : c.engine.txOpen = none) (hnc : NoTxCtrl b)
    (hb : (runBody interp cc b
            ((clientExecute interp cc ⟨"BEGIN", []⟩ c).1)).2 = .error e) :
    (db.transaction interp cc b c).2 = .error e
    ∧ (db.transaction interp cc b c).1.engine.committed = c.engine.committed
    ∧ (db.transaction interp cc b c).1.engine.txOpen = none
    ∧ (db.transaction interp cc b c).1.trace
        = (runBody interp cc b
            ((clientExecute interp cc ⟨"BEGIN", []⟩ c).1)).1.trace
          ++ [⟨"ROLLBACK", []⟩]
    ∧ (∀ s p, s ≠ "BEGIN" → s ≠ "COMMIT" → s ≠ "ROLLBACK" →
        interp s p c.engine.committed = .ok (c.engine.committed, []) →
        (db.get interp cc s p (db.transaction interp cc b c).1).2 = .ok none) := by
  have hbeg := clientExecute_begin_none interp cc c h0
  have htr := transaction_error_path interp cc b c e h0 hb
  have hc1eng : ((clientExecute interp cc ⟨"BEGIN", []⟩ c).1).engine
      = ⟨c.engine.committed, some c.engine.committed⟩ := by
    rw [hbeg]
  have hc1some : (((clientExecute interp cc ⟨"BEGIN", []⟩ c).1).engine.txOpen).isSome := by
    rw [hc1eng]; rfl
  have hpres := runBody_preserves interp cc hnc
    ((clientExecute interp cc ⟨"BEGIN", []⟩ c).1) hc1some
  obtain ⟨s2, hs2⟩ := Option.isSome_iff_exists.mp hpres.2
  have hrb := clientExecute_rollback_some interp cc
    (runBody interp cc b ((clientExecute interp cc ⟨"BEGIN", []⟩ c).1)).1 s2 hs2
  have hcom2 : (runBody interp cc b
      ((clientExecute interp cc ⟨"BEGIN", []⟩ c).1)).1.engine.committed
      = c.engine.committed := by
    rw [hpres.1, hc1eng]
  have hfin : db.transaction interp cc b c
      = (⟨⟨c.engine.committed, none⟩,
          (runBody interp cc b
            ((clientExecute interp cc ⟨"BEGIN", []⟩ c).1)).1.trace
            ++ [⟨"ROLLBACK", []⟩]⟩, .error e) := by
    rw [htr, hrb, hcom2]
  refine ⟨by rw [hfin], by rw [hfin], by rw [hfin], by rw [hfin], ?_⟩
  intro s p hs1 hs2' hs3 hi
  rw [hfin]
  exact db.get_data_autocommit interp cc s p _ hs1 hs2' hs3 rfl
    c.engine.committed [] hi

/-- Witness for C2 at a concrete input: a body that inserts a row and then
throws leaves the committed store unchanged and the transaction rejects
with the body's own error. -/
theorem tx_body_error_rolls_back_witness :
    (db.transaction demoInterp noCommitCheck bodyInsertThenThrow demoConn).2
      = .error (.raw "boom")
    ∧ (db.transaction demoInterp noCommitCheck
        bodyInsertThenThrow demoConn).1.engine.committed
      = demoConn.engine.committed := by
  have h := tx_body_error_rolls_back demoInterp noCommitCheck bodyInsertThenThrow
    demoConn (.raw "boom") rfl
    (NoTxCtrl.runQ "INS" [.vstr "k", .vstr "v"] (.throwE (.raw "boom"))
      (by decide) (by decide) (by decide) (NoTxCtrl.throwE (.raw "boom")))
    rfl
  exact ⟨h.1, h.2.1⟩

/-- Counterexample to C2 as stated over all bodies: a body that issues
`COMMIT` through the scoped facade, then inserts a row (now autocommitted
and durable), then throws. The transaction rejects with the body's error,
yet the committed store has changed and the inserted row is visible. -/
theorem tx_body_error_store_changed_cex :
    (db.transaction demoInterp noCommitCheck bodyCommitInsertThrow demoConn).2
      = .error (.raw "boom")
    ∧ (db.transaction demoInterp noCommitCheck
        bodyCommitInsertThrow demoConn).1.engine.committed
      ≠ demoConn.engine.committed
    ∧ (db.get demoInterp noCommitCheck "SEL" [.vstr "k"]
        (db.transaction demoInterp noCommitCheck bodyCommitInsertThrow demoConn).1).2
      ≠ .ok none := by
  exact ⟨rfl, by decide, by decide⟩

/-- C5: when the body rejects and the cleanup rollback itself fails, the
rollback failure is suppressed: `db.transaction` rejects with the body's
original error and never with the rollback error. -/
theorem rollback_failure_suppressed {σ : Type}
    (interp : String → List Value → σ → Except JsErr (σ × List Row))
    (cc : σ → Option JsErr) (b : Body) (c : Conn σ) (e re : JsErr)
    (h0 : c.engine.txOpen = none)
    (hb : (runBody interp cc b
            ((clientExecute interp cc ⟨"BEGIN", []⟩ c).1)).2 = .error e)
    (_hrb : (clientExecute interp cc ⟨"ROLLBACK", []⟩
             (runBody interp cc b
               ((clientExecute interp cc ⟨"BEGIN", []⟩ c).1)).1).2 = .error re) :
    (db.transaction interp cc b c).2 = .error e
    ∧ (e ≠ re → (db.transaction interp cc b c).2 ≠ .error re) := by
  have htr := transaction_error_path interp cc b c e h0 hb
  constructor
  · rw [htr]
  · intro hne hcontra
    rw [htr] at hcontra
    dsimp only at hcontra
    exact hne (Except.error.inj hcontra)

/-- Witness for C5 at a concrete input: a body that resolves the open
transaction itself and then throws; the cleanup rollback fails with the
engine's "no transaction is active" error, yet the transaction rejects
with the body's own error. -/
theorem rollback_failure_suppressed_witness :
    (db.transaction demoInterp noCommitCheck bodyRollbackThenThrow demoConn).2
      = .error (.raw "boom")
    ∧ (db.transaction demoInterp noCommitCheck bodyRollbackThenThrow demoConn).2
      ≠ .error (.errObj "cannot rollback - no transaction is active") := by
  have h := rollback_failure_suppressed demoInterp noCommitCheck
    bodyRollbackThenThrow demoConn (.raw "boom")
    (.errObj "cannot rollback - no transaction is active") rfl rfl rfl
  exact ⟨h.1, h.2 (by decide)⟩

/-- C4: for every body that completes normally, a commit is attempted
(the `COMMIT` request is delivered right after the body's statements);
when the commit succeeds the transaction resolves with the body's result,
when the commit fails benignly — with an `Error` whose message reports
"no transaction is active" — the failure is swallowed and the transaction
still resolves with the body's result, and any other commit failure makes
the transaction reject with that commit error instead of the result. -/
theorem commit_benign_failure_tolerated {σ : Type}
    (interp : String → List Value → σ → Except JsErr (σ × List Row))
    (cc : σ → Option JsErr) (b : Body) (c : Conn σ) (v : Value)
    (h0 : c.engine.txOpen = none)
    (hb : (runBody interp cc b
            ((clientExecute interp cc ⟨"BEGIN", []⟩ c).1)).2 = .ok v) :
    (∃ rest, (db.transaction interp cc b c).1.trace
        = (runBody interp cc b
            ((clientExecute interp cc ⟨"BEGIN", []⟩ c).1)).1.trace
          ++ [⟨"COMMIT", []⟩] ++ rest)
    ∧ (∀ rows, (clientExecute interp cc ⟨"COMMIT", []⟩
          (runBody interp cc b
            ((clientExecute interp cc ⟨"BEGIN", []⟩ c).1)).1).2 = .ok rows →
        db.transaction interp cc b c
          = ((clientExecute interp cc ⟨"COMMIT", []⟩
              (runBody interp cc b
                ((clientExecute interp cc ⟨"BEGIN", []⟩ c).1)).1).1, .ok v))
    ∧ (∀ ce, (clientExecute interp cc ⟨"COMMIT", []⟩
          (runBody interp cc b
            ((clientExecute interp cc ⟨"BEGIN", []⟩ c).1)).1).2 = .error ce →
        benignCommit ce = true →
        db.transaction interp cc b c
          = ((clientExecute interp cc ⟨"COMMIT", []⟩
              (runBody interp cc b
                ((clientExecute interp cc ⟨"BEGIN", []⟩ c).1)).1).1, .ok v))
    ∧ (∀ ce, (clientExecute interp cc ⟨"COMMIT", []⟩
          (runBody interp cc b
            ((clientExecute interp cc ⟨"BEGIN", []⟩ c).1)).1).2 = .error ce →
        benignCommit ce = false →
        (db.transaction interp cc b c).2 = .error ce) := by
  have htr := transaction_ok_path interp cc b c v h0 hb
  have htrace := clientExecute_trace interp cc ⟨"COMMIT", []⟩
    (runBody interp cc b ((clientExecute interp cc ⟨"BEGIN", []⟩ c).1)).1
  rcases hcq : clientExecute interp cc ⟨"COMMIT", []⟩
      (runBody interp cc b
        ((clientExecute interp cc ⟨"BEGIN", []⟩ c).1)).1 with ⟨c3, rc⟩
  rw [hcq] at htr htrace
  dsimp only at htr htrace
  refine ⟨?_, ?_, ?_, ?_⟩
  · cases rc with
    | ok rows =>
      dsimp only at htr
      refine ⟨[], ?_⟩
      rw [htr]
      dsimp only
      rw [htrace]
      simp
    | error ce =>
      dsimp only at htr
      by_cases hben : benignCommit ce = true
      · refine ⟨[], ?_⟩
        rw [htr, if_pos hben]
        dsimp only
        rw [htrace]
        simp
      · refine ⟨[⟨"ROLLBACK", []⟩], ?_⟩
        rw [htr, if_neg hben]
        dsimp only
        rw [clientExecute_trace, htrace]
  · intro rows h
    dsimp only at h
    rw [h] at htr
    dsimp only at htr
    rw [h]
    dsimp only
    exact htr
  · intro ce h hben
    dsimp only at h
    rw [h] at htr
    dsimp only at htr
    rw [h]
    dsimp only
    rw [htr, if_pos hben]
  · intro ce h hben
    dsimp only at h
    rw [h] at htr
    dsimp only at htr
    rw [htr, if_neg (by simp [hben])]

/-- Witness for C4 at concrete inputs: a trivially succeeding body commits
and the transaction resolves with the body's result under the check-free
engine; under an engine whose commit-time check rejects with a deferred
foreign-key error — not a "no transaction is active" report — the same
transaction rejects with exactly that commit error. -/
theorem commit_benign_failure_tolerated_witness :
    (db.transaction demoInterp noCommitCheck (Body.pure .vnull) demoConn).2
      = .ok .vnull
    ∧ (db.transaction demoInterp fkCommitCheck (Body.pure .vnull) demoConn).2
      = .error (.errObj "FOREIGN KEY constraint failed") := by
  constructor
  · have h := (commit_benign_failure_tolerated demoInterp noCommitCheck
      (Body.pure .vnull) demoConn .vnull rfl rfl).2.1 [] rfl
    rw [h]
  · exact (commit_benign_failure_tolerated demoInterp fkCommitCheck
      (Body.pure .vnull) demoConn .vnull rfl rfl).2.2.2
      (.errObj "FOREIGN KEY constraint failed") rfl (by decide)

theorem transaction_error_state {σ : Type}
    (interp : String → List Value → σ → Except JsErr (σ × List Row))
    (cc : σ → Option JsErr) (b : Body) (c : Conn σ) (e : JsErr)
    (h0 : c.engine.txOpen = none) (hnc : NoTxCtrl b)
    (hb : (runBody interp cc b
            ((clientExecute interp cc ⟨"BEGIN", []⟩ c).1)).2 = .error e) :
    (db.transaction interp cc b c).2 = .error e
    ∧ (db.transaction interp cc b c).1.engine.committed = c.engine.committed
    ∧ (db.transaction interp cc b c).1.engine.txOpen = none := by
  have hbeg := clientExecute_begin_none interp cc c h0
  have htr := transaction_error_path interp cc b c e h0 hb
  have hc1eng : ((clientExecute interp cc ⟨"BEGIN", []⟩ c).1).engine
      = ⟨c.engine.committed, some c.engine.committed⟩ := by
    rw [hbeg]
  have hc1some : (((clientExecute interp cc ⟨"BEGIN", []⟩ c).1).engine.txOpen).isSome := by
    rw [hc1eng]; rfl
  have hpres := runBody_preserves interp cc hnc
    ((clientExecute interp cc ⟨"BEGIN", []⟩ c).1) hc1some
  obtain ⟨s2, hs2⟩ := Option.isSome_iff_exists.mp hpres.2
  have hrb := clientExecute_rollback_some interp cc
    (runBody interp cc b ((clientExecute interp cc ⟨"BEGIN", []⟩ c).1)).1 s2 hs2
  have hcom2 : (runBody interp cc b
      ((clientExecute interp cc ⟨"BEGIN", []⟩ c).1)).1.engine.committed
      = c.engine.committed := by
    rw [hpres.1, hc1eng]
  rw [htr, hrb, hcom2]
  exact ⟨rfl, rfl, rfl⟩

/-- C10 (amended): when a transaction body lets the scoped facade's
nested-transaction rejection propagate out of the body, the outer
transaction is rolled back and rejects with that same nested-transaction
error; provided the body issued no transaction-control statement through
the scoped facade, the committed store is unchanged by the outer body's
statements and no transaction stays open. -/
theorem nested_error_propagates_rolls_back {σ : Type}
    (interp : String → List Value → σ → Except JsErr (σ × List Row))
    (cc : σ → Option JsErr) (b : Body) (c : Conn σ)
    (h0 : c.engine.txOpen = none) (hnc : NoTxCtrl b)
    (hb : (runBody interp cc b
            ((clientExecute interp cc ⟨"BEGIN", []⟩ c).1)).2
          = .error (.errObj "Nested transactions not supported")) :
    (db.transaction interp cc b c).2
      = .error (.errObj "Nested transactions not supported")
    ∧ (db.transaction interp cc b c).1.engine.committed = c.engine.committed
    ∧ (db.transaction interp cc b c).1.engine.txOpen = none :=
  transaction_error_state interp cc b c
    (.errObj "Nested transactions not supported") h0 hnc hb

/-- Witness for C10 at a concrete input: a body that inserts a row and then
calls the scoped facade's `transaction` member, letting the rejection
propagate; the outer transaction rejects with the nested-transaction error
and the committed store is unchanged. -/
theorem nested_error_propagates_rolls_back_witness :
    (db.transaction demoInterp noCommitCheck bodyInsertThenNested demoConn).2
      = .error (.errObj "Nested transactions not supported")
    ∧ (db.transaction demoInterp noCommitCheck
        bodyInsertThenNested demoConn).1.engine.committed
      = demoConn.engine.committed := by
  have h := nested_error_propagates_rolls_back demoInterp noCommitCheck
    bodyInsertThenNested demoConn rfl
    (NoTxCtrl.runQ "INS" [.vstr "k", .vstr "v"]
      (.nestedTx (.pure .vnull) (fun v => .pure v))
      (by decide) (by decide) (by decide)
      (NoTxCtrl.nestedTx (.pure .vnull) (fun v => .pure v)))
    rfl
  exact ⟨h.1, h.2.1⟩

/-- Counterexample to C10 as stated over all bodies: a body that issues
`COMMIT` through the scoped facade, durably inserts a row, and then trips
the nested-transaction rejection. The outer call rejects with the
nested-transaction error, yet the store keeps the body's insert. -/
theorem nested_error_store_changed_cex :
    (db.transaction demoInterp noCommitCheck bodyCommitInsertNested demoConn).2
      = .error (.errObj "Nested transactions not supported")
    ∧ (db.transaction demoInterp noCommitCheck
        bodyCommitInsertNested demoConn).1.engine.committed
      ≠ demoConn.engine.committed :=
  ⟨rfl, by decide⟩

theorem insertOrIgnoreUser_subset (u : UserRow) (t : List UserRow) :
    ∀ v ∈ t, v ∈ insertOrIgnoreUser u t := by
  intro v hv
  unfold insertOrIgnoreUser
  split
  · exact hv
  · exact List.mem_append_left _ hv

theorem insertOrIgnoreUser_conflict (u : UserRow) (t : List UserRow)
    (h : ∃ v ∈ t, (v.id == u.id || v.email == u.email) = true) :
    insertOrIgnoreUser u t = t := by
  unfold insertOrIgnoreUser userConflicts
  rw [if_pos (List.any_eq_true.mpr h)]

theorem insertOrIgnoreUser_exists_conflict (u : UserRow) (t : List UserRow) :
    ∃ v ∈ insertOrIgnoreUser u t, (v.id == u.id || v.email == u.email) = true := by
  unfold insertOrIgnoreUser
  by_cases h : userConflicts u t = true
  · rw [if_pos h]
    unfold userConflicts at h
    exact List.any_eq_true.mp h
  · rw [if_neg h]
    refine ⟨u, List.mem_append_right _ ?_, by simp⟩
    simp

theorem insertOrIgnoreProduct_subset (p : ProductRow) (t : List ProductRow) :
    ∀ v ∈ t, v ∈ insertOrIgnoreProduct p t := by
  intro v hv
  unfold insertOrIgnoreProduct
  split
  · exact hv
  · exact List.mem_append_left _ hv

theorem insertOrIgnoreProduct_conflict (p : ProductRow) (t : List ProductRow)
    (h : ∃ v ∈ t, (v.id == p.id || v.sku == p.sku) = true) :
    insertOrIgnoreProduct p t = t := by
  unfold insertOrIgnoreProduct productConflicts
  rw [if_pos (List.any_eq_true.mpr h)]

theorem insertOrIgnoreProduct_exists_conflict (p : ProductRow) (t : List ProductRow) :
    ∃ v ∈ insertOrIgnoreProduct p t, (v.id == p.id || v.sku == p.sku) = true := by
  unfold insertOrIgnoreProduct
  by_cases h : productConflicts p t = true
  · rw [if_pos h]
    unfold productConflicts at h
    exact List.any_eq_true.mp h
  · rw [if_neg h]
    refine ⟨p, List.mem_append_right _ ?_, by simp⟩
    simp

theorem seedDatabase_idem (h h' : String) (st : SeedStore) :
    seedDatabase h' (seedDatabase h st) = seedDatabase h st := by
  have hu : insertOrIgnoreUser (adminSeedRow h')
      (insertOrIgnoreUser (adminSeedRow h) st.users)
      = insertOrIgnoreUser (adminSeedRow h) st.users := by
    apply insertOrIgnoreUser_conflict
    obtain ⟨v, hv, hp⟩ := insertOrIgnoreUser_exists_conflict (adminSeedRow h) st.users
    exact ⟨v, hv, hp⟩
  have hc1 : ∃ v ∈ insertOrIgnoreProduct prod3Row
      (insertOrIgnoreProduct prod2Row (insertOrIgnoreProduct prod1Row st.products)),
      (v.id == prod1Row.id || v.sku == prod1Row.sku) = true := by
    obtain ⟨v, hv, hp⟩ := insertOrIgnoreProduct_exists_conflict prod1Row st.products
    exact ⟨v, insertOrIgnoreProduct_subset prod3Row _ v
      (insertOrIgnoreProduct_subset prod2Row _ v hv), hp⟩
  have hc2 : ∃ v ∈ insertOrIgnoreProduct prod3Row
      (insertOrIgnoreProduct prod2Row (insertOrIgnoreProduct prod1Row st.products)),
      (v.id == prod2Row.id || v.sku == prod2Row.sku) = true := by
    obtain ⟨v, hv, hp⟩ := insertOrIgnoreProduct_exists_conflict prod2Row
      (insertOrIgnoreProduct prod1Row st.products)
    exact ⟨v, insertOrIgnoreProduct_subset prod3Row _ v hv, hp⟩
  have hc3 : ∃ v ∈ insertOrIgnoreProduct prod3Row
      (insertOrIgnoreProduct prod2Row (insertOrIgnoreProduct prod1Row st.products)),
      (v.id == prod3Row.id || v.sku == prod3Row.sku) = true :=
    insertOrIgnoreProduct_exists_conflict prod3Row
      (insertOrIgnoreProduct prod2Row (insertOrIgnoreProduct prod1Row st.products))
  have hp : insertOrIgnoreProduct prod3Row (insertOrIgnoreProduct prod2Row
      (insertOrIgnoreProduct prod1Row (insertOrIgnoreProduct prod3Row
        (insertOrIgnoreProduct prod2Row (insertOrIgnoreProduct prod1Row st.products)))))
      = insertOrIgnoreProduct prod3Row
        (insertOrIgnoreProduct prod2Row (insertOrIgnoreProduct prod1Row st.products)) := by
    rw [insertOrIgnoreProduct_conflict prod1Row _ hc1,
        insertOrIgnoreProduct_conflict prod2Row _ hc2,
        insertOrIgnoreProduct_conflict prod3Row _ hc3]
  unfold seedDatabase
  dsimp only
  rw [hu, hp]

/-- C8: seed insertion is idempotent. Rerunning the four seed statements
against any already-seeded store is a no-op, whatever hash the second run
computes; seeding a fresh store yields exactly the four seed rows; and
after two runs there is exactly one row per seeded natural key (user id
"admin1" and SKUs "SKU001", "SKU002", "SKU003"), carrying the first run's
values — in particular the first run's password hash. -/
theorem seed_idempotent (h h' : String) (st : SeedStore) :
    seedDatabase h' (seedDatabase h st) = seedDatabase h st
    ∧ (seedDatabase h ⟨[], []⟩).users = [adminSeedRow h]
    ∧ (seedDatabase h ⟨[], []⟩).products = [prod1Row, prod2Row, prod3Row]
    ∧ ((seedDatabase h' (seedDatabase h ⟨[], []⟩)).users.filter
        (fun u => u.id == "admin1")) = [adminSeedRow h]
    ∧ ((seedDatabase h' (seedDatabase h ⟨[], []⟩)).products.filter
        (fun p => p.sku == "SKU001")) = [prod1Row]
    ∧ ((seedDatabase h' (seedDatabase h ⟨[], []⟩)).products.filter
        (fun p => p.sku == "SKU002")) = [prod2Row]
    ∧ ((seedDatabase h' (seedDatabase h ⟨[], []⟩)).products.filter
        (fun p => p.sku == "SKU003")) = [prod3Row] := by
  have hone : (seedDatabase h (⟨[], []⟩ : SeedStore)).users = [adminSeedRow h] := by
    simp [seedDatabase, insertOrIgnoreUser, userConflicts]
  have htwo : (seedDatabase h (⟨[], []⟩ : SeedStore)).products
      = [prod1Row, prod2Row, prod3Row] := by
    simp [seedDatabase, insertOrIgnoreProduct, productConflicts,
      prod1Row, prod2Row, prod3Row]
  refine ⟨seedDatabase_idem h h' st, hone, htwo, ?_, ?_, ?_, ?_⟩
  · rw [seedDatabase_idem h h' ⟨[], []⟩, hone]
    simp [adminSeedRow]
  · rw [seedDatabase_idem h h' ⟨[], []⟩, htwo]
    decide
  · rw [seedDatabase_idem h h' ⟨[], []⟩, htwo]
    decide
  · rw [seedDatabase_idem h h' ⟨[], []⟩, htwo]
    decide

theorem lookupRes_mem (rs : List (Nat × InitOutcome)) (pid : Nat) (o : InitOutcome)
    (h : lookupRes rs pid = some o) : (pid, o) ∈ rs := by
  induction rs with
  | nil => cases h
  | cons hd tl ih =>
    rcases hd with ⟨q, o'⟩
    unfold lookupRes at h
    by_cases hq : q = pid
    · rw [if_pos hq] at h
      subst hq
      rw [Option.some.inj h]
      exact List.mem_cons_self _ _
    · rw [if_neg hq] at h
      exact List.mem_cons_of_mem _ (ih h)

theorem set_caller_cases {callers : List CallerState} {i j : Nat}
    {cs' cs : CallerState} (hj : (callers.set i cs')[j]? = some cs) :
    cs = cs' ∨ callers[j]? = some cs := by
  rw [List.getElem?_set] at hj
  by_cases hij : i = j
  · rw [if_pos hij] at hj
    by_cases hlen : i < callers.length
    · rw [if_pos hlen] at hj
      exact Or.inl (Option.some.inj hj).symm
    · rw [if_neg hlen] at hj
      cases hj
  · rw [if_neg hij] at hj
    exact Or.inr hj

theorem good_set_caller {out : InitOutcome} {w : InitWorld}
    {callers : List CallerState} (hg : Good out ⟨w, callers⟩)
    (i : Nat) (cs' : CallerState)
    (h1 : cs' ≠ .entry → w.initializationPromise = some 0)
    (h2 : ∀ pid, cs' = .awaitingTok pid → pid = 0)
    (h3 : ∀ r, cs' = .finished r →
      (out = .ok → r = .ok ()) ∧ ∀ e, out = .fail e → r = .error e)
    (h4 : w.initializationPromise = none → cs' = .entry) :
    Good out ⟨w, callers.set i cs'⟩ := by
  obtain ⟨cfg, startsLe, promNone, promSome, nonEntry, awaitPid, taskInv, resInv, finInv⟩ := hg
  refine ⟨cfg, startsLe, ?_, promSome, ?_, ?_, taskInv, resInv, ?_⟩
  · intro hp
    have hn := promNone hp
    refine ⟨hn.1, hn.2.1, hn.2.2.1, hn.2.2.2.1, hn.2.2.2.2.1, ?_⟩
    intro j cs hj
    rcases set_caller_cases hj with h | h
    · rw [h]; exact h4 hp
    · exact hn.2.2.2.2.2 j cs h
  · intro j cs hj hne
    rcases set_caller_cases hj with h | h
    · exact h1 (fun hcs' => hne (h.trans hcs'))
    · exact nonEntry j cs h hne
  · intro j pid hj
    rcases set_caller_cases hj with h | h
    · exact h2 pid h.symm
    · exact awaitPid j pid h
  · intro j r hj
    rcases set_caller_cases hj with h | h
    · exact h3 r h.symm
    · exact finInv j r h

theorem stepTask_prom (w : InitWorld) :
    (stepTask w).initializationPromise = w.initializationPromise := by
  unfold stepTask
  rcases htask : w.task with _ | ⟨q, m, o⟩
  · rfl
  · cases m <;> rfl

theorem stepCallerState_fst_await (w : InitWorld) (q : Nat) :
    (stepCallerState w (.awaitingTok q)).1 = w := by
  rcases hlook : lookupRes w.resolutions q with _ | o
  · simp [stepCallerState, hlook]
  · cases o with
    | ok =>
      by_cases hc : w.libsqlClient.isSome <;> simp [stepCallerState, hlook, hc]
    | fail e => simp [stepCallerState, hlook]

theorem good_init (n steps : Nat) (out : InitOutcome) :
    Good out (initSys n steps out) := by
  refine ⟨rfl, Nat.zero_le 1, ?_, ?_, ?_, ?_, ?_, ?_, ?_⟩
  · intro hp
    refine ⟨rfl, rfl, rfl, rfl, rfl, ?_⟩
    intro i cs hj
    dsimp only [initSys] at hj
    rw [List.getElem?_replicate] at hj
    by_cases h : i < n
    · rw [if_pos h] at hj
      exact (Option.some.inj hj).symm
    · rw [if_neg h] at hj
      cases hj
  · intro pid hp
    cases hp
  · intro i cs hj hne
    dsimp only [initSys] at hj
    rw [List.getElem?_replicate] at hj
    by_cases h : i < n
    · rw [if_pos h] at hj
      exact absurd (Option.some.inj hj).symm hne
    · rw [if_neg h] at hj
      cases hj
  · intro i pid hj
    dsimp only [initSys] at hj
    rw [List.getElem?_replicate] at hj
    by_cases h : i < n
    · rw [if_pos h] at hj
      simp at hj
    · rw [if_neg h] at hj
      cases hj
  · intro pid m o heq
    cases heq
  · intro pid o hmem
    dsimp only [initSys] at hmem
    simp at hmem
  · intro i r hj
    dsimp only [initSys] at hj
    rw [List.getElem?_replicate] at hj
    by_cases h : i < n
    · rw [if_pos h] at hj
      simp at hj
    · rw [if_neg h] at hj
      cases hj

theorem stepSys_caller_eq (i : Nat) (w : InitWorld) (callers : List CallerState) :
    stepSys (.caller i) ⟨w, callers⟩
      = match callers[i]? with
        | none => ⟨w, callers⟩
        | some cs => ⟨(stepCallerState w cs).1, callers.set i (stepCallerState w cs).2⟩ := by
  rfl

theorem good_step {out : InitOutcome} {s : Sys} (hg : Good out s) (l : Label) :
    Good out (stepSys l s) := by
  obtain ⟨w, callers⟩ := s
  cases l with
  | task =>
    show Good out ⟨stepTask w, callers⟩
    obtain ⟨cfg, startsLe, promNone, promSome, nonEntry, awaitPid,
      taskInv, resInv, finInv⟩ := hg
    rcases htask : w.task with _ | ⟨pid, m, o⟩
    · have hw : stepTask w = w := by
        unfold stepTask
        rw [htask]
      rw [hw]
      exact ⟨cfg, startsLe, promNone, promSome, nonEntry, awaitPid,
        taskInv, resInv, finInv⟩
    · have hto := taskInv pid m o htask
      cases m with
      | succ m' =>
        have hw : stepTask w = { w with task := some (pid, m', o) } := by
          unfold stepTask
          rw [htask]
        rw [hw]
        refine ⟨cfg, startsLe, ?_, promSome, nonEntry, awaitPid, ?_, resInv, finInv⟩
        · intro hp
          exact absurd (promNone hp).2.2.2.1 (by rw [htask]; simp)
        · intro pid' m'' o' heq
          simp only [Option.some.injEq, Prod.mk.injEq] at heq
          exact ⟨by rw [← heq.1]; exact hto.1, by rw [← heq.2.2]; exact hto.2⟩
      | zero =>
        have hw : stepTask w
            = { w with
                task := none,
                resolutions := w.resolutions ++ [(pid, o)] } := by
          unfold stepTask
          rw [htask]
        rw [hw]
        refine ⟨cfg, startsLe, ?_, promSome, nonEntry, awaitPid, ?_, ?_, finInv⟩
        · intro hp
          exact absurd (promNone hp).2.2.2.1 (by rw [htask]; simp)
        · intro pid' m'' o' heq
          cases heq
        · intro pid' o' hmem
          rcases List.mem_append.mp hmem with hmem | hmem
          · exact resInv pid' o' hmem
          · have hpr := List.mem_singleton.mp hmem
            simp only [Prod.mk.injEq] at hpr
            exact ⟨by rw [hpr.1]; exact hto.1, by rw [hpr.2]; exact hto.2⟩
  | caller i =>
    rw [stepSys_caller_eq]
    rcases hci : callers[i]? with _ | cs
    · exact hg
    · show Good out ⟨(stepCallerState w cs).1, callers.set i (stepCallerState w cs).2⟩
      cases cs with
      | entry =>
        rcases hprom : w.initializationPromise with _ | pid
        · have hn := hg.promNone hprom
          have hcs : stepCallerState w .entry
              = ({ w with
                    initializationPromise := some w.nextPromiseId,
                    nextPromiseId := w.nextPromiseId + 1,
                    initStarts := w.initStarts + 1,
                    libsqlClient := some (),
                    task := some (w.nextPromiseId, w.cfgSteps, w.cfgOut) },
                 .awaitingTok w.nextPromiseId) := by
            unfold stepCallerState
            rw [hprom, hn.2.1]
            simp
          rw [hcs]
          refine ⟨hg.cfg, ?_, ?_, ?_, ?_, ?_, ?_, hg.resInv, ?_⟩
          · show w.initStarts + 1 ≤ 1
            rw [hn.1]
          · intro hp
            cases hp
          · intro pid' hp
            injection hp with h'
            refine ⟨by rw [← h']; exact hn.2.2.1, ?_, rfl⟩
            show w.initStarts + 1 = 1
            rw [hn.1]
          · intro j cs hj hne
            show some w.nextPromiseId = some 0
            rw [hn.2.2.1]
          · intro j pid' hj
            rcases set_caller_cases hj with hh | hh
            · injection hh with h'
              rw [h']
              exact hn.2.2.1
            · exact hg.awaitPid j pid' hh
          · intro pid' m'' o' heq
            simp only [Option.some.injEq, Prod.mk.injEq] at heq
            exact ⟨by rw [← heq.1]; exact hn.2.2.1, by rw [← heq.2.2]; exact hg.cfg⟩
          · intro j r hj
            rcases set_caller_cases hj with hh | hh
            · cases hh
            · exact hg.finInv j r hh
        · have hs := hg.promSome pid hprom
          have hcs : stepCallerState w .entry = (w, .awaitingTok pid) := by
            unfold stepCallerState
            rw [hprom]
          rw [hcs]
          refine good_set_caller hg i (.awaitingTok pid) ?_ ?_ ?_ ?_
          · intro hne
            rw [hprom, hs.1]
          · intro pid' h
            injection h with h'
            rw [← h']
            exact hs.1
          · intro r hr
            cases hr
          · intro hpn
            rw [hprom] at hpn
            cases hpn
      | awaitingTok pid =>
        have hpid0 := hg.awaitPid i pid hci
        have hprom0 : w.initializationPromise = some 0 :=
          hg.nonEntry i _ hci (by simp)
        rcases hlook : lookupRes w.resolutions pid with _ | o
        · have hcs : stepCallerState w (.awaitingTok pid) = (w, .awaitingTok pid) := by
            simp only [stepCallerState]
            rw [hlook]
          rw [hcs]
          refine good_set_caller hg i (.awaitingTok pid) ?_ ?_ ?_ ?_
          · intro hne
            exact hprom0
          · intro pid' h
            injection h with h'
            rw [← h']
            exact hpid0
          · intro r hr
            cases hr
          · intro hpn
            rw [hpn] at hprom0
            cases hprom0
        · have hmem := lookupRes_mem _ _ _ hlook
          have hro := hg.resInv pid o hmem
          have hclient : w.libsqlClient = some () := (hg.promSome 0 hprom0).2.2
          cases o with
          | ok =>
            have hcs : stepCallerState w (.awaitingTok pid)
                = (w, .finished (.ok ())) := by
              simp only [stepCallerState]
              rw [hlook, hclient]
              simp
            rw [hcs]
            refine good_set_caller hg i (.finished (.ok ())) ?_ ?_ ?_ ?_
            · intro hne
              exact hprom0
            · intro pid' h
              cases h
            · intro r hr
              injection hr with h'
              rw [← h']
              refine ⟨fun _ => rfl, fun e he => ?_⟩
              rw [← hro.2] at he
              cases he
            · intro hpn
              rw [hpn] at hprom0
              cases hprom0
          | fail e =>
            have hcs : stepCallerState w (.awaitingTok pid)
                = (w, .finished (.error e)) := by
              simp only [stepCallerState]
              rw [hlook]
            rw [hcs]
            refine good_set_caller hg i (.finished (.error e)) ?_ ?_ ?_ ?_
            · intro hne
              exact hprom0
            · intro pid' h
              cases h
            · intro r hr
              injection hr with h'
              rw [← h']
              constructor
              · intro hok
                rw [← hro.2] at hok
                cases hok
              · intro e' he'
                rw [← hro.2] at he'
                injection he' with h''
                rw [h'']
            · intro hpn
              rw [hpn] at hprom0
              cases hprom0
      | finished r =>
        have hcs : stepCallerState w (.finished r) = (w, .finished r) := rfl
        rw [hcs]
        refine good_set_caller hg i (.finished r) ?_ ?_ ?_ ?_
        · intro hne
          exact hg.nonEntry i _ hci (by simp)
        · intro pid' h
          cases h
        · intro r' hr
          injection hr with h'
          rw [← h']
          exact hg.finInv i r hci
        · intro hpn
          have hfe := (hg.promNone hpn).2.2.2.2.2 i _ hci
          cases hfe

theorem good_runSched {out : InitOutcome} (sched : List Label) {s : Sys}
    (hg : Good out s) : Good out (runSched sched s) := by
  induction sched generalizing s with
  | nil => exact hg
  | cons l rest ih =>
    show Good out (runSched rest (stepSys l s))
    exact ih (good_step hg l)

theorem stepSys_prom_mono (l : Label) (s : Sys) (pid : Nat)
    (h : s.w.initializationPromise = some pid) :
    (stepSys l s).w.initializationPromise = some pid := by
  obtain ⟨w, callers⟩ := s
  have h' : w.initializationPromise = some pid := h
  cases l with
  | task =>
    show (stepTask w).initializationPromise = some pid
    rw [stepTask_prom]
    exact h'
  | caller i =>
    rw [stepSys_caller_eq]
    rcases hci : callers[i]? with _ | cs
    · exact h'
    · show (stepCallerState w cs).1.initializationPromise = some pid
      cases cs with
      | entry =>
        have hcs : stepCallerState w .entry = (w, .awaitingTok pid) := by
          unfold stepCallerState
          rw [h']
        rw [hcs]
        exact h'
      | awaitingTok q =>
        rw [stepCallerState_fst_await]
        exact h'
      | finished r =>
        exact h'

theorem runSched_prom_mono (sched : List Label) (s : Sys) (pid : Nat)
    (h : s.w.initializationPromise = some pid) :
    (runSched sched s).w.initializationPromise = some pid := by
  induction sched generalizing s with
  | nil => exact h
  | cons l rest ih =>
    show (runSched rest (stepSys l s)).w.initializationPromise = some pid
    exact ih _ (stepSys_prom_mono l s pid h)

theorem stepSys_caller_any (i : Nat) (s : Sys) :
    stepSys (.caller i) s
      = match s.callers[i]? with
        | none => s
        | some cs =>
          ⟨(stepCallerState s.w cs).1, s.callers.set i (stepCallerState s.w cs).2⟩ := by
  obtain ⟨w, callers⟩ := s
  rfl

/-- C1: under every interleaving of any number of concurrent first-time
callers, initialization runs at most once: the caller that finds no
recorded promise records one and starts `initializeDatabase` in the same
atomic step, so `initStarts` never exceeds 1, every suspended caller
awaits the one promise with identity 0, any two suspended callers await
the same promise, and once any caller has progressed past entry,
`initializeDatabase` has been started exactly once. -/
theorem init_executes_once (n steps : Nat) (out : InitOutcome) (sched : List Label) :
    (runSched sched (initSys n steps out)).w.initStarts ≤ 1
    ∧ (∀ (i pid : Nat), (runSched sched (initSys n steps out)).callers[i]?
        = some (CallerState.awaitingTok pid) → pid = 0)
    ∧ (∀ (i j pid qid : Nat),
        (runSched sched (initSys n steps out)).callers[i]?
          = some (CallerState.awaitingTok pid) →
        (runSched sched (initSys n steps out)).callers[j]?
          = some (CallerState.awaitingTok qid) → pid = qid)
    ∧ (∀ (i : Nat) (cs : CallerState),
        (runSched sched (initSys n steps out)).callers[i]? = some cs →
        cs ≠ CallerState.entry →
        (runSched sched (initSys n steps out)).w.initStarts = 1) := by
  have hg := good_runSched sched (good_init n steps out)
  refine ⟨hg.startsLe, fun i pid h => hg.awaitPid i pid h, ?_, ?_⟩
  · intro i j pid qid hi hj
    rw [hg.awaitPid i pid hi, hg.awaitPid j qid hj]
  · intro i cs h hne
    exact (hg.promSome 0 (hg.nonEntry i cs h hne)).2.1

/-- Witness for C1 at a concrete input: two concurrent first-time callers
interleaved with the initialization task; initialization starts exactly
once and both callers finish successfully. -/
theorem init_executes_once_witness :
    (runSched [Label.caller 0, Label.caller 1, Label.task, Label.task,
      Label.caller 0, Label.caller 1] (initSys 2 1 .ok)).w.initStarts ≤ 1
    ∧ (runSched [Label.caller 0, Label.caller 1, Label.task, Label.task,
      Label.caller 0, Label.caller 1] (initSys 2 1 .ok)).w.initStarts = 1
    ∧ (runSched [Label.caller 0, Label.caller 1, Label.task, Label.task,
      Label.caller 0, Label.caller 1] (initSys 2 1 .ok)).callers
      = [CallerState.finished (Except.ok ()),
         CallerState.finished (Except.ok ())] :=
  ⟨(init_executes_once 2 1 .ok
      [Label.caller 0, Label.caller 1, Label.task, Label.task,
        Label.caller 0, Label.caller 1]).1,
   by decide, by decide⟩

/-- C7: when the configured initialization outcome is a failure, the
failure is terminal for the process: every caller that finishes under any
schedule receives exactly the initialization error, the recorded
initialization token is never reset by any further scheduling, and a
caller awaiting the settled token finishes with that same error as soon
as it is next scheduled. -/
theorem init_failure_terminal (n steps : Nat) (e : JsErr) (sched extra : List Label) :
    (∀ (i : Nat) (r : Except JsErr Unit),
        (runSched sched (initSys n steps (.fail e))).callers[i]?
          = some (CallerState.finished r) → r = Except.error e)
    ∧ (∀ pid,
        (runSched sched (initSys n steps (.fail e))).w.initializationPromise
          = some pid →
        (runSched extra
          (runSched sched (initSys n steps (.fail e)))).w.initializationPromise
          = some pid)
    ∧ (∀ (i : Nat), (runSched sched (initSys n steps (.fail e))).callers[i]?
          = some (CallerState.awaitingTok 0) →
        lookupRes (runSched sched (initSys n steps (.fail e))).w.resolutions 0
          = some (.fail e) →
        (stepSys (.caller i)
          (runSched sched (initSys n steps (.fail e)))).callers[i]?
          = some (CallerState.finished (Except.error e))) := by
  have hg := good_runSched sched (good_init n steps (.fail e))
  refine ⟨?_, ?_, ?_⟩
  · intro i r h
    exact (hg.finInv i r h).2 e rfl
  · intro pid h
    exact runSched_prom_mono extra _ pid h
  · intro i hai hres
    have hlen : i < (runSched sched (initSys n steps (.fail e))).callers.length := by
      rcases List.getElem?_eq_some.mp hai with ⟨hl, _⟩
      exact hl
    have hcs : stepCallerState (runSched sched (initSys n steps (.fail e))).w
        (.awaitingTok 0)
        = ((runSched sched (initSys n steps (.fail e))).w,
           .finished (.error e)) := by
      simp only [stepCallerState]
      rw [hres]
    rw [stepSys_caller_any, hai]
    dsimp only
    rw [hcs]
    dsimp only
    rw [List.getElem?_set, if_pos rfl, if_pos hlen]

/-- Witness for C7 at a concrete input: two callers, the second suspended
on the settled (rejected) token; scheduling it once more finishes it with
exactly the initialization error. -/
theorem init_failure_terminal_witness :
    ((runSched [Label.caller 0, Label.caller 1, Label.task]
        (initSys 2 0 (.fail (.errObj "seed failed")))).callers[1]?
      = some (CallerState.awaitingTok 0))
    ∧ (stepSys (.caller 1)
        (runSched [Label.caller 0, Label.caller 1, Label.task]
          (initSys 2 0 (.fail (.errObj "seed failed"))))).callers[1]?
      = some (CallerState.finished (Except.error (.errObj "seed failed"))) :=
  ⟨by decide,
   (init_failure_terminal 2 0 (.errObj "seed failed")
     [Label.caller 0, Label.caller 1, Label.task] []).2.2 1
     (by decide) (by decide)⟩
